import Mathlib

/-
Verification of the phoenix-sdk client core: the ladder market simulator
(src/rust/crates/phoenix-sdk/src/ladder_utils.rs) and the versioned order
packet decoder (src/rust/phoenix-sdk-core/src/packet_decoder.rs).

The ladder simulator is embedded twice:
* over unbounded Nat arithmetic (the exact-arithmetic reading, which agrees
  with the Rust u64 code on every input where no 64-bit wrap and no division
  by zero occurs), and
* as a checked variant with explicit mod 2^64 wrapping and an Option fault
  channel for division by zero, faithful to the u64 semantics of the code.

The packet decoder is embedded over byte lists (bytes as Nat), with borsh
readers for the primitive field types and the same current-schema-first,
deprecated-schema-second fallback chain as the source.
-/

/-- One price level of the ladder, mirroring phoenix LadderOrder. -/
structure LadderOrder where
  price_in_ticks : Nat
  size_in_base_lots : Nat
  deriving DecidableEq

/-- Bid and ask levels, best price first, mirroring phoenix Ladder. -/
structure Ladder where
  bids : List LadderOrder
  asks : List LadderOrder
  deriving DecidableEq

/-- Ladder plus the two scaling constants, from ladder_utils.rs. -/
structure LadderWithAdjustment where
  ladder : Ladder
  tick_size_in_quote_lots_per_base_unit : Nat
  base_lots_per_base_unit : Nat
  deriving DecidableEq

/-- Result record of a simulation, from ladder_utils.rs. -/
structure SimulationSummaryInLots where
  base_lots_filled : Nat
  quote_lots_filled : Nat
  deriving DecidableEq

/-- Side of the book, mirroring phoenix Side (borsh tags Bid = 0, Ask = 1). -/
inductive Side
  | Bid
  | Ask
  deriving DecidableEq

/-- The ask-walking loop of sell_quote (ladder_utils.rs lines 71-82), with
the mutable state (remaining_adjusted_quote_lots, base_lots) passed
explicitly. -/
def sellQuoteLoop (tick : Nat) : List LadderOrder → Nat → Nat → Nat × Nat
  | [], remaining, base => (remaining, base)
  | ask :: rest, remaining, base =>
    if remaining = 0 then (remaining, base)
    else
      let max_base_lots_you_can_buy := remaining / (ask.price_in_ticks * tick)
      let amount_lots_to_buy := min max_base_lots_you_can_buy ask.size_in_base_lots
      sellQuoteLoop tick rest
        (remaining - amount_lots_to_buy * (ask.price_in_ticks * tick))
        (base + amount_lots_to_buy)

/-- sell_quote from ladder_utils.rs lines 66-90. -/
def sell_quote (L : LadderWithAdjustment) (num_lots_quote : Nat) : SimulationSummaryInLots :=
  let adjusted_quote_lots := num_lots_quote * L.base_lots_per_base_unit
  let res := sellQuoteLoop L.tick_size_in_quote_lots_per_base_unit L.ladder.asks
    adjusted_quote_lots 0
  { base_lots_filled := res.2
    quote_lots_filled := (adjusted_quote_lots - res.1) / L.base_lots_per_base_unit }

/-- The bid-walking loop of sell_base (ladder_utils.rs lines 96-105), with
the mutable state (remaining_base_lots, adjusted_quote_lots) passed
explicitly. -/
def sellBaseLoop (tick : Nat) : List LadderOrder → Nat → Nat → Nat × Nat
  | [], remaining, acc => (remaining, acc)
  | bid :: rest, remaining, acc =>
    if remaining = 0 then (remaining, acc)
    else
      let lots_to_fill := min remaining bid.size_in_base_lots
      sellBaseLoop tick rest (remaining - lots_to_fill)
        (acc + lots_to_fill * bid.price_in_ticks * tick)

/-- sell_base from ladder_utils.rs lines 92-112. -/
def sell_base (L : LadderWithAdjustment) (num_lots_base : Nat) : SimulationSummaryInLots :=
  let res := sellBaseLoop L.tick_size_in_quote_lots_per_base_unit L.ladder.bids
    num_lots_base 0
  { base_lots_filled := num_lots_base - res.1
    quote_lots_filled := res.2 / L.base_lots_per_base_unit }

/-- simulate_market_sell from ladder_utils.rs lines 114-119. -/
def simulate_market_sell (L : LadderWithAdjustment) (side : Side) (size_in_lots : Nat) :
    SimulationSummaryInLots :=
  match side with
  | Side.Bid => sell_quote L size_in_lots
  | Side.Ask => sell_base L size_in_lots

/-- Modelled from the spec (section 4.1, sellQuote): walk the asks best price
first while the scaled budget is positive, taking at each level the minimum of
what the budget affords at that price and the level size; returns (sum of
takes, remaining scaled budget). -/
def sellQuoteSpecWalk (tick : Nat) : List LadderOrder → Nat → Nat × Nat
  | [], budget => (0, budget)
  | lvl :: rest, budget =>
    if budget = 0 then (0, budget)
    else
      let take := min (budget / (lvl.price_in_ticks * tick)) lvl.size_in_base_lots
      let r := sellQuoteSpecWalk tick rest (budget - take * (lvl.price_in_ticks * tick))
      (take + r.1, r.2)

/-- Modelled from the spec (section 4.1, sellQuote): scale the input, walk the
asks, report the sum of takes and the consumed budget divided once by
baseLotsPerBaseUnit. -/
def sellQuoteSpec (L : LadderWithAdjustment) (quoteLots : Nat) : SimulationSummaryInLots :=
  let scaledBudget := quoteLots * L.base_lots_per_base_unit
  let w := sellQuoteSpecWalk L.tick_size_in_quote_lots_per_base_unit L.ladder.asks scaledBudget
  { base_lots_filled := w.1
    quote_lots_filled := (scaledBudget - w.2) / L.base_lots_per_base_unit }

/-- Modelled from the spec (section 4.1, sellBase): symmetric walk over the
bids taking min(remaining, level size) per level and accumulating scaled
proceeds take * price_in_ticks * tickScale; returns (sum of takes, scaled
proceeds). -/
def sellBaseSpecWalk (tick : Nat) : List LadderOrder → Nat → Nat × Nat
  | [], _ => (0, 0)
  | lvl :: rest, remaining =>
    if remaining = 0 then (0, 0)
    else
      let take := min remaining lvl.size_in_base_lots
      let r := sellBaseSpecWalk tick rest (remaining - take)
      (take + r.1, take * lvl.price_in_ticks * tick + r.2)

/-- Modelled from the spec (section 4.1, sellBase): walk the bids and convert
the accumulated proceeds to quote lots once at the end. -/
def sellBaseSpec (L : LadderWithAdjustment) (baseLots : Nat) : SimulationSummaryInLots :=
  let w := sellBaseSpecWalk L.tick_size_in_quote_lots_per_base_unit L.ladder.bids baseLots
  { base_lots_filled := w.1
    quote_lots_filled := w.2 / L.base_lots_per_base_unit }

/-- Total base-lot depth of a list of levels. -/
def sizeSum (l : List LadderOrder) : Nat :=
  (l.map LadderOrder.size_in_base_lots).sum

/-- Total scaled quote cost of consuming a list of levels entirely. -/
def costSum (tick : Nat) (l : List LadderOrder) : Nat :=
  (l.map (fun a => a.size_in_base_lots * a.price_in_ticks * tick)).sum

/-- The SOL/USDC test fixture ladder from ladder_utils.rs lines 136-179. -/
def fixtureLadder : LadderWithAdjustment :=
  { ladder :=
      { bids :=
          [ { price_in_ticks := 0x58bf, size_in_base_lots := 0x043f }
          , { price_in_ticks := 0x58b9, size_in_base_lots := 0x043f }
          , { price_in_ticks := 0x58a7, size_in_base_lots := 0x043f } ]
        asks :=
          [ { price_in_ticks := 0x58c0, size_in_base_lots := 0x3036 }
          , { price_in_ticks := 0x58c0, size_in_base_lots := 0x01e1ff }
          , { price_in_ticks := 0x58c0, size_in_base_lots := 0x02a261 } ] }
    tick_size_in_quote_lots_per_base_unit := 1000
    base_lots_per_base_unit := 1000 }

/-- 2 ^ 64, the modulus of Rust u64 arithmetic. -/
def U64MOD : Nat := 2 ^ 64

/-- The ask-walking loop of sell_quote under faithful u64 semantics: every
arithmetic operation wraps modulo 2 ^ 64 (Rust release profile) and a division
whose divisor is zero is a fault, signalled by none.  The subtraction cannot
underflow because the amount bought is capped by remaining / divisor. -/
def sellQuoteLoopChecked (tick : Nat) : List LadderOrder → Nat → Nat → Option (Nat × Nat)
  | [], remaining, base => some (remaining, base)
  | ask :: rest, remaining, base =>
    if remaining = 0 then some (remaining, base)
    else
      let d := ask.price_in_ticks * tick % U64MOD
      if d = 0 then none
      else
        let amount_lots_to_buy := min (remaining / d) ask.size_in_base_lots
        sellQuoteLoopChecked tick rest (remaining - amount_lots_to_buy * d % U64MOD)
          ((base + amount_lots_to_buy) % U64MOD)

/-- sell_quote under faithful u64 semantics; none signals a division by zero
fault in the Rust code. -/
def sell_quote_checked (L : LadderWithAdjustment) (num_lots_quote : Nat) :
    Option SimulationSummaryInLots :=
  let adjusted_quote_lots := num_lots_quote * L.base_lots_per_base_unit % U64MOD
  match sellQuoteLoopChecked L.tick_size_in_quote_lots_per_base_unit L.ladder.asks
      adjusted_quote_lots 0 with
  | none => none
  | some res =>
    if L.base_lots_per_base_unit = 0 then none
    else
      some { base_lots_filled := res.2
             quote_lots_filled := (adjusted_quote_lots - res.1) / L.base_lots_per_base_unit }

/-- The bid-walking loop of sell_base under faithful u64 semantics: additions
and multiplications wrap modulo 2 ^ 64; the loop contains no division and no
possible subtraction underflow, hence no fault. -/
def sellBaseLoopChecked (tick : Nat) : List LadderOrder → Nat → Nat → Nat × Nat
  | [], remaining, acc => (remaining, acc)
  | bid :: rest, remaining, acc =>
    if remaining = 0 then (remaining, acc)
    else
      let lots_to_fill := min remaining bid.size_in_base_lots
      sellBaseLoopChecked tick rest (remaining - lots_to_fill)
        ((acc + lots_to_fill * bid.price_in_ticks * tick % U64MOD) % U64MOD)

/-- sell_base under faithful u64 semantics; none signals a division by zero
fault (possible only when base_lots_per_base_unit is zero). -/
def sell_base_checked (L : LadderWithAdjustment) (num_lots_base : Nat) :
    Option SimulationSummaryInLots :=
  let res := sellBaseLoopChecked L.tick_size_in_quote_lots_per_base_unit L.ladder.bids
    num_lots_base 0
  if L.base_lots_per_base_unit = 0 then none
  else
    some { base_lots_filled := num_lots_base - res.1
           quote_lots_filled := res.2 / L.base_lots_per_base_unit }

/-- simulate_market_sell under faithful u64 semantics. -/
def simulate_market_sell_checked (L : LadderWithAdjustment) (side : Side)
    (size_in_lots : Nat) : Option SimulationSummaryInLots :=
  match side with
  | Side.Bid => sell_quote_checked L size_in_lots
  | Side.Ask => sell_base_checked L size_in_lots

/-- A ladder with both scaling constants nonzero but a zero-priced ask level:
the snapshot shape the spec calls malicious/zero-valued and trusts away. -/
def zeroPriceLadder : LadderWithAdjustment :=
  { ladder :=
      { bids := []
        asks := [ { price_in_ticks := 0, size_in_base_lots := 1 } ] }
    tick_size_in_quote_lots_per_base_unit := 1
    base_lots_per_base_unit := 1 }

/-- Read a k-byte little-endian unsigned integer from a byte list, returning
the value and the unconsumed rest; borsh layout for u64 (k = 8) and u128
(k = 16). -/
def readLE : Nat → List Nat → Option (Nat × List Nat)
  | 0, bytes => some (0, bytes)
  | _ + 1, [] => none
  | k + 1, b :: rest =>
    match readLE k rest with
    | none => none
    | some (v, r) => some (b + 256 * v, r)

/-- Little-endian encoding of an unsigned integer on k bytes. -/
def encodeLE : Nat → Nat → List Nat
  | 0, _ => []
  | k + 1, n => n % 256 :: encodeLE k (n / 256)

/-- Borsh reader for the Side enum: tag byte 0 is Bid, 1 is Ask. -/
def readSide : List Nat → Option (Side × List Nat)
  | [] => none
  | b :: rest =>
    if b = 0 then some (Side.Bid, rest)
    else if b = 1 then some (Side.Ask, rest)
    else none

/-- Borsh encoding of the Side enum. -/
def encodeSide : Side → List Nat
  | Side.Bid => [0]
  | Side.Ask => [1]

/-- Self-trade handling policy, mirroring phoenix SelfTradeBehavior with its
borsh tag order. -/
inductive SelfTradeBehavior
  | Abort
  | CancelProvide
  | DecrementTake
  deriving DecidableEq

/-- Borsh reader for SelfTradeBehavior. -/
def readSelfTradeBehavior : List Nat → Option (SelfTradeBehavior × List Nat)
  | [] => none
  | b :: rest =>
    if b = 0 then some (SelfTradeBehavior.Abort, rest)
    else if b = 1 then some (SelfTradeBehavior.CancelProvide, rest)
    else if b = 2 then some (SelfTradeBehavior.DecrementTake, rest)
    else none

/-- Borsh encoding of SelfTradeBehavior. -/
def encodeSelfTradeBehavior : SelfTradeBehavior → List Nat
  | SelfTradeBehavior.Abort => [0]
  | SelfTradeBehavior.CancelProvide => [1]
  | SelfTradeBehavior.DecrementTake => [2]

/-- Borsh reader for bool: one byte that must be exactly 0 or 1. -/
def readBool : List Nat → Option (Bool × List Nat)
  | [] => none
  | b :: rest =>
    if b = 0 then some (false, rest)
    else if b = 1 then some (true, rest)
    else none

/-- Borsh encoding of bool. -/
def encodeBool (b : Bool) : List Nat :=
  if b then [1] else [0]

/-- Borsh reader for an optional u64 (also covers Option of the Ticks
wrapper): presence byte 0 or 1, then the 8-byte value if present. -/
def readOptU64 : List Nat → Option (Option Nat × List Nat)
  | [] => none
  | b :: rest =>
    if b = 0 then some (none, rest)
    else if b = 1 then
      match readLE 8 rest with
      | none => none
      | some (v, r) => some (some v, r)
    else none

/-- Borsh encoding of an optional u64. -/
def encodeOptU64 : Option Nat → List Nat
  | none => [0]
  | some v => 1 :: encodeLE 8 v

/-- A Bool-valued bound check for an optional u64 field. -/
def optU64wf : Option Nat → Bool
  | none => true
  | some v => decide (v < 18446744073709551616)

/-- The packet kind selector enum from packet_decoder.rs, borsh tags
PostOnly = 0, Limit = 1, ImmediateOrCancel = 2. -/
inductive OrderPacketEnum
  | PostOnly
  | Limit
  | ImmediateOrCancel
  deriving DecidableEq

/-- OrderPacketEnum::try_from_slice on the single-byte slice [tag]. -/
def OrderPacketEnum.try_from_byte (t : Nat) : Option OrderPacketEnum :=
  if t = 0 then some OrderPacketEnum.PostOnly
  else if t = 1 then some OrderPacketEnum.Limit
  else if t = 2 then some OrderPacketEnum.ImmediateOrCancel
  else none

/-- Current-schema post-only packet, packet_decoder.rs lines 37-64. -/
structure PostOnlyPacket where
  side : Side
  price_in_ticks : Nat
  num_base_lots : Nat
  client_order_id : Nat
  reject_post_only : Bool
  use_only_deposited_funds : Bool
  last_valid_slot : Option Nat
  last_valid_unix_timestamp_in_seconds : Option Nat
  deriving DecidableEq

/-- Deprecated-schema post-only packet, packet_decoder.rs lines 14-35. -/
structure DeprecatedPostOnlyPacket where
  side : Side
  price_in_ticks : Nat
  num_base_lots : Nat
  client_order_id : Nat
  reject_post_only : Bool
  use_only_deposited_funds : Bool
  deriving DecidableEq

/-- Current-schema limit packet, packet_decoder.rs lines 91-120. -/
structure LimitPacket where
  side : Side
  price_in_ticks : Nat
  num_base_lots : Nat
  self_trade_behavior : SelfTradeBehavior
  match_limit : Option Nat
  client_order_id : Nat
  use_only_deposited_funds : Bool
  last_valid_slot : Option Nat
  last_valid_unix_timestamp_in_seconds : Option Nat
  deriving DecidableEq

/-- Deprecated-schema limit packet, packet_decoder.rs lines 66-89. -/
structure DeprecatedLimitPacket where
  side : Side
  price_in_ticks : Nat
  num_base_lots : Nat
  self_trade_behavior : SelfTradeBehavior
  match_limit : Option Nat
  client_order_id : Nat
  use_only_deposited_funds : Bool
  deriving DecidableEq

/-- Current-schema immediate-or-cancel packet, packet_decoder.rs lines
163-199; the u64 quantity wrappers (Ticks, BaseLots, QuoteLots) are carried
as plain numbers, exactly as borsh serializes them. -/
structure ImmediateOrCancelPacket where
  side : Side
  price_in_ticks : Option Nat
  num_base_lots : Nat
  num_quote_lots : Nat
  min_base_lots_to_fill : Nat
  min_quote_lots_to_fill : Nat
  self_trade_behavior : SelfTradeBehavior
  match_limit : Option Nat
  client_order_id : Nat
  use_only_deposited_funds : Bool
  last_valid_slot : Option Nat
  last_valid_unix_timestamp_in_seconds : Option Nat
  deriving DecidableEq

/-- Deprecated-schema immediate-or-cancel packet, packet_decoder.rs lines
122-161. -/
structure DeprecatedImmediateOrCancelPacket where
  side : Side
  price_in_ticks : Option Nat
  num_base_lots : Nat
  num_quote_lots : Nat
  min_base_lots_to_fill : Nat
  min_quote_lots_to_fill : Nat
  self_trade_behavior : SelfTradeBehavior
  match_limit : Option Nat
  client_order_id : Nat
  use_only_deposited_funds : Bool
  deriving DecidableEq

/-- Field-order borsh body parse of the current post-only schema. -/
def parsePostOnlyBody (bytes : List Nat) : Option (PostOnlyPacket × List Nat) :=
  match readSide bytes with
  | none => none
  | some (side, bytes) =>
  match readLE 8 bytes with
  | none => none
  | some (price_in_ticks, bytes) =>
  match readLE 8 bytes with
  | none => none
  | some (num_base_lots, bytes) =>
  match readLE 16 bytes with
  | none => none
  | some (client_order_id, bytes) =>
  match readBool bytes with
  | none => none
  | some (reject_post_only, bytes) =>
  match readBool bytes with
  | none => none
  | some (use_only_deposited_funds, bytes) =>
  match readOptU64 bytes with
  | none => none
  | some (last_valid_slot, bytes) =>
  match readOptU64 bytes with
  | none => none
  | some (last_valid_unix_timestamp_in_seconds, bytes) =>
  some ({ side, price_in_ticks, num_base_lots, client_order_id, reject_post_only,
          use_only_deposited_funds, last_valid_slot,
          last_valid_unix_timestamp_in_seconds }, bytes)

/-- Field-order borsh body parse of the deprecated post-only schema. -/
def parseDeprecatedPostOnlyBody (bytes : List Nat) :
    Option (DeprecatedPostOnlyPacket × List Nat) :=
  match readSide bytes with
  | none => none
  | some (side, bytes) =>
  match readLE 8 bytes with
  | none => none
  | some (price_in_ticks, bytes) =>
  match readLE 8 bytes with
  | none => none
  | some (num_base_lots, bytes) =>
  match readLE 16 bytes with
  | none => none
  | some (client_order_id, bytes) =>
  match readBool bytes with
  | none => none
  | some (reject_post_only, bytes) =>
  match readBool bytes with
  | none => none
  | some (use_only_deposited_funds, bytes) =>
  some ({ side, price_in_ticks, num_base_lots, client_order_id, reject_post_only,
          use_only_deposited_funds }, bytes)

/-- Field-order borsh body parse of the current limit schema. -/
def parseLimitBody (bytes : List Nat) : Option (LimitPacket × List Nat) :=
  match readSide bytes with
  | none => none
  | some (side, bytes) =>
  match readLE 8 bytes with
  | none => none
  | some (price_in_ticks, bytes) =>
  match readLE 8 bytes with
  | none => none
  | some (num_base_lots, bytes) =>
  match readSelfTradeBehavior bytes with
  | none => none
  | some (self_trade_behavior, bytes) =>
  match readOptU64 bytes with
  | none => none
  | some (match_limit, bytes) =>
  match readLE 16 bytes with
  | none => none
  | some (client_order_id, bytes) =>
  match readBool bytes with
  | none => none
  | some (use_only_deposited_funds, bytes) =>
  match readOptU64 bytes with
  | none => none
  | some (last_valid_slot, bytes) =>
  match readOptU64 bytes with
  | none => none
  | some (last_valid_unix_timestamp_in_seconds, bytes) =>
  some ({ side, price_in_ticks, num_base_lots, self_trade_behavior, match_limit,
          client_order_id, use_only_deposited_funds, last_valid_slot,
          last_valid_unix_timestamp_in_seconds }, bytes)

/-- Field-order borsh body parse of the deprecated limit schema. -/
def parseDeprecatedLimitBody (bytes : List Nat) :
    Option (DeprecatedLimitPacket × List Nat) :=
  match readSide bytes with
  | none => none
  | some (side, bytes) =>
  match readLE 8 bytes with
  | none => none
  | some (price_in_ticks, bytes) =>
  match readLE 8 bytes with
  | none => none
  | some (num_base_lots, bytes) =>
  match readSelfTradeBehavior bytes with
  | none => none
  | some (self_trade_behavior, bytes) =>
  match readOptU64 bytes with
  | none => none
  | some (match_limit, bytes) =>
  match readLE 16 bytes with
  | none => none
  | some (client_order_id, bytes) =>
  match readBool bytes with
  | none => none
  | some (use_only_deposited_funds, bytes) =>
  some ({ side, price_in_ticks, num_base_lots, self_trade_behavior, match_limit,
          client_order_id, use_only_deposited_funds }, bytes)

/-- Field-order borsh body parse of the current immediate-or-cancel schema. -/
def parseIocBody (bytes : List Nat) : Option (ImmediateOrCancelPacket × List Nat) :=
  match readSide bytes with
  | none => none
  | some (side, bytes) =>
  match readOptU64 bytes with
  | none => none
  | some (price_in_ticks, bytes) =>
  match readLE 8 bytes with
  | none => none
  | some (num_base_lots, bytes) =>
  match readLE 8 bytes with
  | none => none
  | some (num_quote_lots, bytes) =>
  match readLE 8 bytes with
  | none => none
  | some (min_base_lots_to_fill, bytes) =>
  match readLE 8 bytes with
  | none => none
  | some (min_quote_lots_to_fill, bytes) =>
  match readSelfTradeBehavior bytes with
  | none => none
  | some (self_trade_behavior, bytes) =>
  match readOptU64 bytes with
  | none => none
  | some (match_limit, bytes) =>
  match readLE 16 bytes with
  | none => none
  | some (client_order_id, bytes) =>
  match readBool bytes with
  | none => none
  | some (use_only_deposited_funds, bytes) =>
  match readOptU64 bytes with
  | none => none
  | some (last_valid_slot, bytes) =>
  match readOptU64 bytes with
  | none => none
  | some (last_valid_unix_timestamp_in_seconds, bytes) =>
  some ({ side, price_in_ticks, num_base_lots, num_quote_lots, min_base_lots_to_fill,
          min_quote_lots_to_fill, self_trade_behavior, match_limit, client_order_id,
          use_only_deposited_funds, last_valid_slot,
          last_valid_unix_timestamp_in_seconds }, bytes)

/-- Field-order borsh body parse of the deprecated immediate-or-cancel
schema. -/
def parseDeprecatedIocBody (bytes : List Nat) :
    Option (DeprecatedImmediateOrCancelPacket × List Nat) :=
  match readSide bytes with
  | none => none
  | some (side, bytes) =>
  match readOptU64 bytes with
  | none => none
  | some (price_in_ticks, bytes) =>
  match readLE 8 bytes with
  | none => none
  | some (num_base_lots, bytes) =>
  match readLE 8 bytes with
  | none => none
  | some (num_quote_lots, bytes) =>
  match readLE 8 bytes with
  | none => none
  | some (min_base_lots_to_fill, bytes) =>
  match readLE 8 bytes with
  | none => none
  | some (min_quote_lots_to_fill, bytes) =>
  match readSelfTradeBehavior bytes with
  | none => none
  | some (self_trade_behavior, bytes) =>
  match readOptU64 bytes with
  | none => none
  | some (match_limit, bytes) =>
  match readLE 16 bytes with
  | none => none
  | some (client_order_id, bytes) =>
  match readBool bytes with
  | none => none
  | some (use_only_deposited_funds, bytes) =>
  some ({ side, price_in_ticks, num_base_lots, num_quote_lots, min_base_lots_to_fill,
          min_quote_lots_to_fill, self_trade_behavior, match_limit, client_order_id,
          use_only_deposited_funds }, bytes)

/-- Borsh try_from_slice semantics: the body parse must consume the whole
input. -/
def PostOnlyPacket.try_from_slice (bytes : List Nat) : Option PostOnlyPacket :=
  match parsePostOnlyBody bytes with
  | some (p, []) => some p
  | _ => none

/-- Borsh try_from_slice for the deprecated post-only schema. -/
def DeprecatedPostOnlyPacket.try_from_slice (bytes : List Nat) :
    Option DeprecatedPostOnlyPacket :=
  match parseDeprecatedPostOnlyBody bytes with
  | some (p, []) => some p
  | _ => none

/-- Borsh try_from_slice for the current limit schema. -/
def LimitPacket.try_from_slice (bytes : List Nat) : Option LimitPacket :=
  match parseLimitBody bytes with
  | some (p, []) => some p
  | _ => none

/-- Borsh try_from_slice for the deprecated limit schema. -/
def DeprecatedLimitPacket.try_from_slice (bytes : List Nat) :
    Option DeprecatedLimitPacket :=
  match parseDeprecatedLimitBody bytes with
  | some (p, []) => some p
  | _ => none

/-- Borsh try_from_slice for the current immediate-or-cancel schema. -/
def ImmediateOrCancelPacket.try_from_slice (bytes : List Nat) :
    Option ImmediateOrCancelPacket :=
  match parseIocBody bytes with
  | some (p, []) => some p
  | _ => none

/-- Borsh try_from_slice for the deprecated immediate-or-cancel schema. -/
def DeprecatedImmediateOrCancelPacket.try_from_slice (bytes : List Nat) :
    Option DeprecatedImmediateOrCancelPacket :=
  match parseDeprecatedIocBody bytes with
  | some (p, []) => some p
  | _ => none

/-- The decode error channel; the Rust code reports anyhow errors with
descriptive messages, one per failing branch. -/
inductive DecodeError
  | emptyInput
  | unknownTag
  | wrongKind
  | schemaMismatch
  deriving DecidableEq

/-- decode_post_only_packet_data from packet_decoder.rs lines 201-236:
split the tag byte, require the PostOnly tag, try the current schema first,
fall back to the deprecated schema upgraded with unset expiry fields. -/
def decode_post_only_packet_data (bytes : List Nat) :
    Except DecodeError PostOnlyPacket :=
  match bytes with
  | [] => Except.error DecodeError.emptyInput
  | tag :: body =>
    match OrderPacketEnum.try_from_byte tag with
    | none => Except.error DecodeError.unknownTag
    | some OrderPacketEnum.PostOnly =>
      match PostOnlyPacket.try_from_slice body with
      | some packet => Except.ok packet
      | none =>
        match DeprecatedPostOnlyPacket.try_from_slice body with
        | some d =>
          Except.ok
            { side := d.side
              price_in_ticks := d.price_in_ticks
              num_base_lots := d.num_base_lots
              client_order_id := d.client_order_id
              reject_post_only := d.reject_post_only
              use_only_deposited_funds := d.use_only_deposited_funds
              last_valid_slot := none
              last_valid_unix_timestamp_in_seconds := none }
        | none => Except.error DecodeError.schemaMismatch
    | some _ => Except.error DecodeError.wrongKind

/-- decode_limit_packet_data from packet_decoder.rs lines 238-275. -/
def decode_limit_packet_data (bytes : List Nat) :
    Except DecodeError LimitPacket :=
  match bytes with
  | [] => Except.error DecodeError.emptyInput
  | tag :: body =>
    match OrderPacketEnum.try_from_byte tag with
    | none => Except.error DecodeError.unknownTag
    | some OrderPacketEnum.Limit =>
      match LimitPacket.try_from_slice body with
      | some packet => Except.ok packet
      | none =>
        match DeprecatedLimitPacket.try_from_slice body with
        | some d =>
          Except.ok
            { side := d.side
              price_in_ticks := d.price_in_ticks
              num_base_lots := d.num_base_lots
              self_trade_behavior := d.self_trade_behavior
              match_limit := d.match_limit
              client_order_id := d.client_order_id
              use_only_deposited_funds := d.use_only_deposited_funds
              last_valid_slot := none
              last_valid_unix_timestamp_in_seconds := none }
        | none => Except.error DecodeError.schemaMismatch
    | some _ => Except.error DecodeError.wrongKind

/-- decode_ioc_packet_data from packet_decoder.rs lines 277-320. -/
def decode_ioc_packet_data (bytes : List Nat) :
    Except DecodeError ImmediateOrCancelPacket :=
  match bytes with
  | [] => Except.error DecodeError.emptyInput
  | tag :: body =>
    match OrderPacketEnum.try_from_byte tag with
    | none => Except.error DecodeError.unknownTag
    | some OrderPacketEnum.ImmediateOrCancel =>
      match ImmediateOrCancelPacket.try_from_slice body with
      | some packet => Except.ok packet
      | none =>
        match DeprecatedImmediateOrCancelPacket.try_from_slice body with
        | some d =>
          Except.ok
            { side := d.side
              price_in_ticks := d.price_in_ticks
              num_base_lots := d.num_base_lots
              num_quote_lots := d.num_quote_lots
              min_base_lots_to_fill := d.min_base_lots_to_fill
              min_quote_lots_to_fill := d.min_quote_lots_to_fill
              self_trade_behavior := d.self_trade_behavior
              match_limit := d.match_limit
              client_order_id := d.client_order_id
              use_only_deposited_funds := d.use_only_deposited_funds
              last_valid_slot := none
              last_valid_unix_timestamp_in_seconds := none }
        | none => Except.error DecodeError.schemaMismatch
    | some _ => Except.error DecodeError.wrongKind

/-- Borsh encoding of a current-schema post-only packet body. -/
def encodePostOnlyPacket (p : PostOnlyPacket) : List Nat :=
  encodeSide p.side ++ encodeLE 8 p.price_in_ticks ++ encodeLE 8 p.num_base_lots ++
    encodeLE 16 p.client_order_id ++ encodeBool p.reject_post_only ++
    encodeBool p.use_only_deposited_funds ++ encodeOptU64 p.last_valid_slot ++
    encodeOptU64 p.last_valid_unix_timestamp_in_seconds

/-- Borsh encoding of a deprecated-schema post-only packet body. -/
def encodeDeprecatedPostOnlyPacket (d : DeprecatedPostOnlyPacket) : List Nat :=
  encodeSide d.side ++ encodeLE 8 d.price_in_ticks ++ encodeLE 8 d.num_base_lots ++
    encodeLE 16 d.client_order_id ++ encodeBool d.reject_post_only ++
    encodeBool d.use_only_deposited_funds

/-- Borsh encoding of a current-schema limit packet body. -/
def encodeLimitPacket (p : LimitPacket) : List Nat :=
  encodeSide p.side ++ encodeLE 8 p.price_in_ticks ++ encodeLE 8 p.num_base_lots ++
    encodeSelfTradeBehavior p.self_trade_behavior ++ encodeOptU64 p.match_limit ++
    encodeLE 16 p.client_order_id ++ encodeBool p.use_only_deposited_funds ++
    encodeOptU64 p.last_valid_slot ++
    encodeOptU64 p.last_valid_unix_timestamp_in_seconds

/-- Borsh encoding of a deprecated-schema limit packet body. -/
def encodeDeprecatedLimitPacket (d : DeprecatedLimitPacket) : List Nat :=
  encodeSide d.side ++ encodeLE 8 d.price_in_ticks ++ encodeLE 8 d.num_base_lots ++
    encodeSelfTradeBehavior d.self_trade_behavior ++ encodeOptU64 d.match_limit ++
    encodeLE 16 d.client_order_id ++ encodeBool d.use_only_deposited_funds

/-- Borsh encoding of a current-schema immediate-or-cancel packet body. -/
def encodeIocPacket (p : ImmediateOrCancelPacket) : List Nat :=
  encodeSide p.side ++ encodeOptU64 p.price_in_ticks ++ encodeLE 8 p.num_base_lots ++
    encodeLE 8 p.num_quote_lots ++ encodeLE 8 p.min_base_lots_to_fill ++
    encodeLE 8 p.min_quote_lots_to_fill ++
    encodeSelfTradeBehavior p.self_trade_behavior ++ encodeOptU64 p.match_limit ++
    encodeLE 16 p.client_order_id ++ encodeBool p.use_only_deposited_funds ++
    encodeOptU64 p.last_valid_slot ++
    encodeOptU64 p.last_valid_unix_timestamp_in_seconds

/-- Borsh encoding of a deprecated-schema immediate-or-cancel packet body. -/
def encodeDeprecatedIocPacket (d : DeprecatedImmediateOrCancelPacket) : List Nat :=
  encodeSide d.side ++ encodeOptU64 d.price_in_ticks ++ encodeLE 8 d.num_base_lots ++
    encodeLE 8 d.num_quote_lots ++ encodeLE 8 d.min_base_lots_to_fill ++
    encodeLE 8 d.min_quote_lots_to_fill ++
    encodeSelfTradeBehavior d.self_trade_behavior ++ encodeOptU64 d.match_limit ++
    encodeLE 16 d.client_order_id ++ encodeBool d.use_only_deposited_funds

/-- Field bounds making a post-only packet representable on the wire
(u64 and u128 fields in range). -/
def PostOnlyPacket.wf (p : PostOnlyPacket) : Bool :=
  decide (p.price_in_ticks < 18446744073709551616) && decide (p.num_base_lots < 18446744073709551616) &&
    decide (p.client_order_id < 340282366920938463463374607431768211456) && optU64wf p.last_valid_slot &&
    optU64wf p.last_valid_unix_timestamp_in_seconds

/-- Field bounds for a deprecated post-only packet. -/
def DeprecatedPostOnlyPacket.wf (d : DeprecatedPostOnlyPacket) : Bool :=
  decide (d.price_in_ticks < 18446744073709551616) && decide (d.num_base_lots < 18446744073709551616) &&
    decide (d.client_order_id < 340282366920938463463374607431768211456)

/-- Field bounds for a current limit packet. -/
def LimitPacket.wf (p : LimitPacket) : Bool :=
  decide (p.price_in_ticks < 18446744073709551616) && decide (p.num_base_lots < 18446744073709551616) &&
    optU64wf p.match_limit && decide (p.client_order_id < 340282366920938463463374607431768211456) &&
    optU64wf p.last_valid_slot && optU64wf p.last_valid_unix_timestamp_in_seconds

/-- Field bounds for a deprecated limit packet. -/
def DeprecatedLimitPacket.wf (d : DeprecatedLimitPacket) : Bool :=
  decide (d.price_in_ticks < 18446744073709551616) && decide (d.num_base_lots < 18446744073709551616) &&
    optU64wf d.match_limit && decide (d.client_order_id < 340282366920938463463374607431768211456)

/-- Field bounds for a current immediate-or-cancel packet. -/
def ImmediateOrCancelPacket.wf (p : ImmediateOrCancelPacket) : Bool :=
  optU64wf p.price_in_ticks && decide (p.num_base_lots < 18446744073709551616) &&
    decide (p.num_quote_lots < 18446744073709551616) && decide (p.min_base_lots_to_fill < 18446744073709551616) &&
    decide (p.min_quote_lots_to_fill < 18446744073709551616) && optU64wf p.match_limit &&
    decide (p.client_order_id < 340282366920938463463374607431768211456) && optU64wf p.last_valid_slot &&
    optU64wf p.last_valid_unix_timestamp_in_seconds

/-- Field bounds for a deprecated immediate-or-cancel packet. -/
def DeprecatedImmediateOrCancelPacket.wf (d : DeprecatedImmediateOrCancelPacket) : Bool :=
  optU64wf d.price_in_ticks && decide (d.num_base_lots < 18446744073709551616) &&
    decide (d.num_quote_lots < 18446744073709551616) && decide (d.min_base_lots_to_fill < 18446744073709551616) &&
    decide (d.min_quote_lots_to_fill < 18446744073709551616) && optU64wf d.match_limit &&
    decide (d.client_order_id < 340282366920938463463374607431768211456)

/-- A concrete current-schema post-only packet used by witnesses. -/
def postOnlyExample : PostOnlyPacket :=
  { side := Side.Bid
    price_in_ticks := 22720
    num_base_lots := 300
    client_order_id := 77
    reject_post_only := true
    use_only_deposited_funds := false
    last_valid_slot := some 123456
    last_valid_unix_timestamp_in_seconds := none }

/-- A concrete current-schema limit packet used by witnesses. -/
def limitExample : LimitPacket :=
  { side := Side.Ask
    price_in_ticks := 22710
    num_base_lots := 4500
    self_trade_behavior := SelfTradeBehavior.CancelProvide
    match_limit := some 12
    client_order_id := 340282366920938463463374607431768211455
    use_only_deposited_funds := true
    last_valid_slot := none
    last_valid_unix_timestamp_in_seconds := some 1700000000 }

/-- A concrete current-schema immediate-or-cancel packet used by
witnesses. -/
def iocExample : ImmediateOrCancelPacket :=
  { side := Side.Bid
    price_in_ticks := none
    num_base_lots := 0
    num_quote_lots := 68000000
    min_base_lots_to_fill := 0
    min_quote_lots_to_fill := 1
    self_trade_behavior := SelfTradeBehavior.DecrementTake
    match_limit := none
    client_order_id := 9
    use_only_deposited_funds := false
    last_valid_slot := some 18446744073709551615
    last_valid_unix_timestamp_in_seconds := some 0 }

/-- A concrete deprecated-schema post-only packet used by witnesses. -/
def deprecatedPostOnlyExample : DeprecatedPostOnlyPacket :=
  { side := Side.Ask
    price_in_ticks := 1
    num_base_lots := 18446744073709551615
    client_order_id := 0
    reject_post_only := false
    use_only_deposited_funds := true }

/-- A concrete deprecated-schema limit packet used by witnesses. -/
def deprecatedLimitExample : DeprecatedLimitPacket :=
  { side := Side.Bid
    price_in_ticks := 500
    num_base_lots := 42
    self_trade_behavior := SelfTradeBehavior.Abort
    match_limit := none
    client_order_id := 65536
    use_only_deposited_funds := false }

/-- A concrete deprecated-schema immediate-or-cancel packet used by
witnesses. -/
def deprecatedIocExample : DeprecatedImmediateOrCancelPacket :=
  { side := Side.Ask
    price_in_ticks := some 22710
    num_base_lots := 6000
    num_quote_lots := 0
    min_base_lots_to_fill := 3000
    min_quote_lots_to_fill := 0
    self_trade_behavior := SelfTradeBehavior.CancelProvide
    match_limit := some 0
    client_order_id := 255
    use_only_deposited_funds := false }

theorem sellQuoteLoop_eq_walk (tick : Nat) (l : List LadderOrder) :
    ∀ r base, sellQuoteLoop tick l r base =
      ((sellQuoteSpecWalk tick l r).2, base + (sellQuoteSpecWalk tick l r).1) := by
  induction l with
  | nil => intro r base; simp [sellQuoteLoop, sellQuoteSpecWalk]
  | cons a rest ih =>
    intro r base
    by_cases hr : r = 0
    · subst hr; simp [sellQuoteLoop, sellQuoteSpecWalk]
    · simp only [sellQuoteLoop, sellQuoteSpecWalk, if_neg hr]
      rw [ih]
      simp [Nat.add_assoc]

theorem sellBaseSpecWalk_fst_le (tick : Nat) (l : List LadderOrder) :
    ∀ r, (sellBaseSpecWalk tick l r).1 ≤ r := by
  induction l with
  | nil => intro r; simp [sellBaseSpecWalk]
  | cons a rest ih =>
    intro r
    by_cases hr : r = 0
    · subst hr; simp [sellBaseSpecWalk]
    · simp only [sellBaseSpecWalk, if_neg hr]
      have h1 : min r a.size_in_base_lots ≤ r := Nat.min_le_left _ _
      have h2 := ih (r - min r a.size_in_base_lots)
      omega

theorem sellBaseLoop_eq_walk (tick : Nat) (l : List LadderOrder) :
    ∀ r acc, sellBaseLoop tick l r acc =
      (r - (sellBaseSpecWalk tick l r).1, acc + (sellBaseSpecWalk tick l r).2) := by
  induction l with
  | nil => intro r acc; simp [sellBaseLoop, sellBaseSpecWalk]
  | cons a rest ih =>
    intro r acc
    by_cases hr : r = 0
    · subst hr; simp [sellBaseLoop, sellBaseSpecWalk]
    · simp only [sellBaseLoop, sellBaseSpecWalk, if_neg hr]
      rw [ih]
      have h1 : min r a.size_in_base_lots ≤ r := Nat.min_le_left _ _
      have h2 := sellBaseSpecWalk_fst_le tick rest (r - min r a.size_in_base_lots)
      simp only [Prod.mk.injEq]
      omega

/-- C1: simulate_market_sell dispatches Bid to sell_quote and Ask to
sell_base exactly, and these agree with the reference sellQuote and sellBase
computations written from the spec, on every scaled ladder and size. -/
theorem simulate_market_sell_matches_spec (L : LadderWithAdjustment) (s : Nat) :
    simulate_market_sell L Side.Bid s = sell_quote L s ∧
    simulate_market_sell L Side.Ask s = sell_base L s ∧
    simulate_market_sell L Side.Bid s = sellQuoteSpec L s ∧
    simulate_market_sell L Side.Ask s = sellBaseSpec L s := by
  refine ⟨rfl, rfl, ?_, ?_⟩
  · show sell_quote L s = sellQuoteSpec L s
    simp [sell_quote, sellQuoteSpec, sellQuoteLoop_eq_walk]
  · show sell_base L s = sellBaseSpec L s
    have h1 := sellBaseSpecWalk_fst_le L.tick_size_in_quote_lots_per_base_unit
      L.ladder.bids s
    simp [sell_base, sellBaseSpec, sellBaseLoop_eq_walk,
      SimulationSummaryInLots.mk.injEq]
    omega

/-- C2: the concrete fixture ladder reproduces the five expected simulation
results from the test table in ladder_utils.rs. -/
theorem fixture_simulation_results :
    simulate_market_sell fixtureLadder Side.Ask 3000 =
      { base_lots_filled := 3000, quote_lots_filled := 68130654 } ∧
    simulate_market_sell fixtureLadder Side.Ask 6000 =
      { base_lots_filled := 3261, quote_lots_filled := 74054049 } ∧
    simulate_market_sell fixtureLadder Side.Bid 68000000 =
      { base_lots_filled := 2992, quote_lots_filled := 67978240 } ∧
    simulate_market_sell fixtureLadder Side.Ask 0 =
      { base_lots_filled := 0, quote_lots_filled := 0 } ∧
    simulate_market_sell fixtureLadder Side.Bid 0 =
      { base_lots_filled := 0, quote_lots_filled := 0 } := by
  refine ⟨by decide, by decide, by decide, by decide, by decide⟩

theorem sellQuoteSpecWalk_snd_le (tick : Nat) (l : List LadderOrder) :
    ∀ r, (sellQuoteSpecWalk tick l r).2 ≤ r := by
  induction l with
  | nil => intro r; simp [sellQuoteSpecWalk]
  | cons a rest ih =>
    intro r
    by_cases hr : r = 0
    · subst hr; simp [sellQuoteSpecWalk]
    · simp only [sellQuoteSpecWalk, if_neg hr]
      have h := ih (r - min (r / (a.price_in_ticks * tick)) a.size_in_base_lots *
        (a.price_in_ticks * tick))
      omega

theorem sellQuoteSpecWalk_fst_le_sizeSum (tick : Nat) (l : List LadderOrder) :
    ∀ r, (sellQuoteSpecWalk tick l r).1 ≤ sizeSum l := by
  induction l with
  | nil => intro r; simp [sellQuoteSpecWalk, sizeSum]
  | cons a rest ih =>
    intro r
    by_cases hr : r = 0
    · subst hr; simp [sellQuoteSpecWalk, sizeSum]
    · simp only [sellQuoteSpecWalk, if_neg hr, sizeSum, List.map_cons, List.sum_cons]
      have h1 : min (r / (a.price_in_ticks * tick)) a.size_in_base_lots ≤
          a.size_in_base_lots := Nat.min_le_right _ _
      have h2 := ih (r - min (r / (a.price_in_ticks * tick)) a.size_in_base_lots *
        (a.price_in_ticks * tick))
      simp only [sizeSum] at h2
      omega

theorem sellQuoteSpecWalk_stall (tick : Nat) (l : List LadderOrder) (r : Nat)
    (h : ∀ x ∈ l, r < x.price_in_ticks * tick) :
    sellQuoteSpecWalk tick l r = (0, r) := by
  induction l with
  | nil => simp [sellQuoteSpecWalk]
  | cons a rest ih =>
    by_cases hr : r = 0
    · subst hr; simp [sellQuoteSpecWalk]
    · have hhead : r < a.price_in_ticks * tick := h a (List.mem_cons_self a rest)
      have hdiv : r / (a.price_in_ticks * tick) = 0 := Nat.div_eq_of_lt hhead
      simp only [sellQuoteSpecWalk, if_neg hr, hdiv, Nat.zero_min, Nat.zero_mul,
        Nat.sub_zero]
      rw [ih (fun x hx => h x (List.mem_cons_of_mem a hx))]
      simp

theorem costSum_cons (tick : Nat) (a : LadderOrder) (rest : List LadderOrder) :
    costSum tick (a :: rest) =
      a.size_in_base_lots * (a.price_in_ticks * tick) + costSum tick rest := by
  simp [costSum, Nat.mul_assoc]

theorem sellQuoteSpecWalk_spend_all (tick : Nat) (l : List LadderOrder) :
    ∀ r, costSum tick l ≤ r →
      (sellQuoteSpecWalk tick l r).2 = r - costSum tick l := by
  induction l with
  | nil => intro r _; simp [sellQuoteSpecWalk, costSum]
  | cons a rest ih =>
    intro r hcost
    rw [costSum_cons] at hcost ⊢
    by_cases hr : r = 0
    · subst hr
      have h0 : sellQuoteSpecWalk tick (a :: rest) 0 = (0, 0) := by
        simp [sellQuoteSpecWalk]
      rw [h0]
      omega
    · simp only [sellQuoteSpecWalk, if_neg hr]
      by_cases hk : a.price_in_ticks * tick = 0
      · rw [hk]
        simp only [Nat.div_zero, Nat.zero_min, Nat.zero_mul, Nat.sub_zero,
          Nat.mul_zero]
        have := ih r (by omega)
        omega
      · have hck : a.size_in_base_lots * (a.price_in_ticks * tick) ≤ r := by omega
        have hdiv : a.size_in_base_lots ≤ r / (a.price_in_ticks * tick) :=
          (Nat.le_div_iff_mul_le (Nat.pos_of_ne_zero hk)).mpr hck
        rw [Nat.min_eq_right hdiv]
        have := ih (r - a.size_in_base_lots * (a.price_in_ticks * tick)) (by omega)
        omega

theorem sellBaseSpecWalk_fst_eq_min (tick : Nat) (l : List LadderOrder) :
    ∀ r, (sellBaseSpecWalk tick l r).1 = min r (sizeSum l) := by
  induction l with
  | nil => intro r; simp [sellBaseSpecWalk, sizeSum]
  | cons a rest ih =>
    intro r
    by_cases hr : r = 0
    · subst hr; simp [sellBaseSpecWalk]
    · simp only [sellBaseSpecWalk, if_neg hr, sizeSum, List.map_cons, List.sum_cons]
      rw [ih (r - min r a.size_in_base_lots)]
      simp only [sizeSum]
      omega

theorem sellBaseSpecWalk_mono (tick : Nat) (l : List LadderOrder) :
    ∀ r1 r2, r1 ≤ r2 →
      (sellBaseSpecWalk tick l r1).1 ≤ (sellBaseSpecWalk tick l r2).1 ∧
      (sellBaseSpecWalk tick l r1).2 ≤ (sellBaseSpecWalk tick l r2).2 := by
  induction l with
  | nil => intro r1 r2 _; simp [sellBaseSpecWalk]
  | cons a rest ih =>
    intro r1 r2 h12
    by_cases h1 : r1 = 0
    · subst h1
      simp [sellBaseSpecWalk]
    · have h2 : r2 ≠ 0 := by omega
      simp only [sellBaseSpecWalk, if_neg h1, if_neg h2]
      have hmin : min r1 a.size_in_base_lots ≤ min r2 a.size_in_base_lots := by omega
      have hrec : r1 - min r1 a.size_in_base_lots ≤ r2 - min r2 a.size_in_base_lots := by
        omega
      obtain ⟨ihf, ihs⟩ := ih _ _ hrec
      constructor
      · omega
      · have hmul : min r1 a.size_in_base_lots * a.price_in_ticks * tick ≤
            min r2 a.size_in_base_lots * a.price_in_ticks * tick :=
          mul_le_mul_right' (mul_le_mul_right' hmin a.price_in_ticks) tick
        omega

theorem sellQuoteSpecWalk_mono (tick : Nat) {l : List LadderOrder}
    (hsort : List.Pairwise (fun x y => x.price_in_ticks ≤ y.price_in_ticks) l) :
    ∀ r1 r2, r1 ≤ r2 →
      (sellQuoteSpecWalk tick l r1).1 ≤ (sellQuoteSpecWalk tick l r2).1 ∧
      r1 - (sellQuoteSpecWalk tick l r1).2 ≤ r2 - (sellQuoteSpecWalk tick l r2).2 := by
  induction hsort with
  | nil =>
    intro r1 r2 h
    simp [sellQuoteSpecWalk]
  | @cons a l ha _ ih =>
    intro r1 r2 h12
    by_cases h1 : r1 = 0
    · subst h1
      have h0 : sellQuoteSpecWalk tick (a :: l) 0 = (0, 0) := by
        simp [sellQuoteSpecWalk]
      rw [h0]
      exact ⟨Nat.zero_le _, Nat.zero_le _⟩
    · have h2 : r2 ≠ 0 := by omega
      simp only [sellQuoteSpecWalk, if_neg h1, if_neg h2]
      have hdd : r1 / (a.price_in_ticks * tick) ≤ r2 / (a.price_in_ticks * tick) :=
        Nat.div_le_div_right h12
      have htle : min (r1 / (a.price_in_ticks * tick)) a.size_in_base_lots ≤
          min (r2 / (a.price_in_ticks * tick)) a.size_in_base_lots := by omega
      have ht1k : min (r1 / (a.price_in_ticks * tick)) a.size_in_base_lots *
          (a.price_in_ticks * tick) ≤ r1 :=
        le_trans (mul_le_mul_right' (Nat.min_le_left _ _) _)
          (Nat.div_mul_le_self r1 _)
      have ht2k : min (r2 / (a.price_in_ticks * tick)) a.size_in_base_lots *
          (a.price_in_ticks * tick) ≤ r2 :=
        le_trans (mul_le_mul_right' (Nat.min_le_left _ _) _)
          (Nat.div_mul_le_self r2 _)
      have hkk : min (r1 / (a.price_in_ticks * tick)) a.size_in_base_lots *
          (a.price_in_ticks * tick) ≤
          min (r2 / (a.price_in_ticks * tick)) a.size_in_base_lots *
          (a.price_in_ticks * tick) := mul_le_mul_right' htle _
      have hw1 := sellQuoteSpecWalk_snd_le tick l
        (r1 - min (r1 / (a.price_in_ticks * tick)) a.size_in_base_lots *
          (a.price_in_ticks * tick))
      have hw2 := sellQuoteSpecWalk_snd_le tick l
        (r2 - min (r2 / (a.price_in_ticks * tick)) a.size_in_base_lots *
          (a.price_in_ticks * tick))
      by_cases hord : r1 - min (r1 / (a.price_in_ticks * tick)) a.size_in_base_lots *
          (a.price_in_ticks * tick) ≤
          r2 - min (r2 / (a.price_in_ticks * tick)) a.size_in_base_lots *
          (a.price_in_ticks * tick)
      · obtain ⟨ihf, ihs⟩ := ih _ _ hord
        exact ⟨by omega, by omega⟩
      · -- here the head take strictly grew and the small budget stalls below
        -- every remaining price
        have hlt : min (r1 / (a.price_in_ticks * tick)) a.size_in_base_lots <
            min (r2 / (a.price_in_ticks * tick)) a.size_in_base_lots := by
          rcases Nat.lt_or_ge (min (r1 / (a.price_in_ticks * tick)) a.size_in_base_lots)
            (min (r2 / (a.price_in_ticks * tick)) a.size_in_base_lots) with h | h
          · exact h
          · exfalso
            have heq : min (r1 / (a.price_in_ticks * tick)) a.size_in_base_lots =
                min (r2 / (a.price_in_ticks * tick)) a.size_in_base_lots := by omega
            rw [heq] at hord
            omega
        have hkpos : 0 < a.price_in_ticks * tick := by
          rcases Nat.eq_zero_or_pos (a.price_in_ticks * tick) with h0 | h0
          · exfalso
            rw [h0] at hlt
            simp [Nat.div_zero] at hlt
          · exact h0
        have ht1div : min (r1 / (a.price_in_ticks * tick)) a.size_in_base_lots =
            r1 / (a.price_in_ticks * tick) := by
          have hts : min (r1 / (a.price_in_ticks * tick)) a.size_in_base_lots <
              a.size_in_base_lots := by
            have := Nat.min_le_right (r2 / (a.price_in_ticks * tick))
              a.size_in_base_lots
            omega
          omega
        have hmod : r1 - min (r1 / (a.price_in_ticks * tick)) a.size_in_base_lots *
            (a.price_in_ticks * tick) = r1 % (a.price_in_ticks * tick) := by
          rw [ht1div]
          have hsum : r1 = r1 % (a.price_in_ticks * tick) +
              r1 / (a.price_in_ticks * tick) * (a.price_in_ticks * tick) := by
            have h := Nat.mod_add_div r1 (a.price_in_ticks * tick)
            rw [Nat.mul_comm (a.price_in_ticks * tick)
              (r1 / (a.price_in_ticks * tick))] at h
            exact h.symm
          exact Nat.sub_eq_of_eq_add hsum
        have hmodlt : r1 % (a.price_in_ticks * tick) < a.price_in_ticks * tick :=
          Nat.mod_lt _ hkpos
        have hstall : sellQuoteSpecWalk tick l
            (r1 - min (r1 / (a.price_in_ticks * tick)) a.size_in_base_lots *
              (a.price_in_ticks * tick)) =
            (0, r1 - min (r1 / (a.price_in_ticks * tick)) a.size_in_base_lots *
              (a.price_in_ticks * tick)) := by
          apply sellQuoteSpecWalk_stall
          intro x hx
          have hpx : a.price_in_ticks ≤ x.price_in_ticks := ha x hx
          have hxk : a.price_in_ticks * tick ≤ x.price_in_ticks * tick :=
            mul_le_mul_right' hpx tick
          rw [hmod]
          omega
        rw [hstall]
        exact ⟨by omega, by omega⟩

theorem sell_quote_eq_spec (L : LadderWithAdjustment) (s : Nat) :
    sell_quote L s = sellQuoteSpec L s := by
  simp [sell_quote, sellQuoteSpec, sellQuoteLoop_eq_walk]

theorem sell_base_eq_spec (L : LadderWithAdjustment) (s : Nat) :
    sell_base L s = sellBaseSpec L s := by
  have h1 := sellBaseSpecWalk_fst_le L.tick_size_in_quote_lots_per_base_unit
    L.ladder.bids s
  simp [sell_base, sellBaseSpec, sellBaseLoop_eq_walk,
    SimulationSummaryInLots.mk.injEq]
  omega

/-- C6: with the asks sorted best price first (the ladder data-model
invariant), both components of the simulation result are non-decreasing in
the requested size, on either side; the bid walk needs no ordering at all. -/
theorem simulate_market_sell_monotone (L : LadderWithAdjustment)
    (hsort : List.Pairwise (fun x y => x.price_in_ticks ≤ y.price_in_ticks)
      L.ladder.asks)
    (s1 s2 : Nat) (h : s1 ≤ s2) (side : Side) :
    (simulate_market_sell L side s1).base_lots_filled ≤
      (simulate_market_sell L side s2).base_lots_filled ∧
    (simulate_market_sell L side s1).quote_lots_filled ≤
      (simulate_market_sell L side s2).quote_lots_filled := by
  cases side with
  | Bid =>
    have hb : s1 * L.base_lots_per_base_unit ≤ s2 * L.base_lots_per_base_unit :=
      mul_le_mul_right' h _
    obtain ⟨hf, hs⟩ :=
      sellQuoteSpecWalk_mono L.tick_size_in_quote_lots_per_base_unit hsort _ _ hb
    constructor
    · simpa [simulate_market_sell, sell_quote_eq_spec, sellQuoteSpec] using hf
    · simpa [simulate_market_sell, sell_quote_eq_spec, sellQuoteSpec] using
        Nat.div_le_div_right hs
  | Ask =>
    obtain ⟨hf, hs⟩ :=
      sellBaseSpecWalk_mono L.tick_size_in_quote_lots_per_base_unit L.ladder.bids
        s1 s2 h
    constructor
    · simpa [simulate_market_sell, sell_base_eq_spec, sellBaseSpec] using hf
    · simpa [simulate_market_sell, sell_base_eq_spec, sellBaseSpec] using
        Nat.div_le_div_right hs

/-- Witness for C6 on the fixture ladder. -/
theorem simulate_market_sell_monotone_witness :
    (simulate_market_sell fixtureLadder Side.Bid 3000).base_lots_filled ≤
      (simulate_market_sell fixtureLadder Side.Bid 6000).base_lots_filled ∧
    (simulate_market_sell fixtureLadder Side.Bid 3000).quote_lots_filled ≤
      (simulate_market_sell fixtureLadder Side.Bid 6000).quote_lots_filled :=
  simulate_market_sell_monotone fixtureLadder (by decide) 3000 6000 (by decide)
    Side.Bid

/-- C7: the filled base lots never exceed the depth of the consumed side, and
the result saturates: a base sale beyond total bid depth fills exactly that
depth, and a quote budget covering the full cost of the asks consumes exactly
that cost. -/
theorem fill_bounded_and_saturates (L : LadderWithAdjustment) (s : Nat) :
    (sell_quote L s).base_lots_filled ≤ sizeSum L.ladder.asks ∧
    (sell_base L s).base_lots_filled ≤ sizeSum L.ladder.bids ∧
    (sizeSum L.ladder.bids ≤ s →
      (sell_base L s).base_lots_filled = sizeSum L.ladder.bids) ∧
    (costSum L.tick_size_in_quote_lots_per_base_unit L.ladder.asks ≤
        s * L.base_lots_per_base_unit →
      (sell_quote L s).quote_lots_filled =
        costSum L.tick_size_in_quote_lots_per_base_unit L.ladder.asks /
          L.base_lots_per_base_unit) := by
  refine ⟨?_, ?_, ?_, ?_⟩
  · have h := sellQuoteSpecWalk_fst_le_sizeSum
      L.tick_size_in_quote_lots_per_base_unit L.ladder.asks
      (s * L.base_lots_per_base_unit)
    simpa [sell_quote_eq_spec, sellQuoteSpec] using h
  · have hmin := sellBaseSpecWalk_fst_eq_min
      L.tick_size_in_quote_lots_per_base_unit L.ladder.bids s
    rw [sell_base_eq_spec]
    simp only [sellBaseSpec, hmin]
    omega
  · intro hdepth
    have hmin := sellBaseSpecWalk_fst_eq_min
      L.tick_size_in_quote_lots_per_base_unit L.ladder.bids s
    rw [sell_base_eq_spec]
    simp only [sellBaseSpec, hmin]
    omega
  · intro hcost
    have hsp := sellQuoteSpecWalk_spend_all
      L.tick_size_in_quote_lots_per_base_unit L.ladder.asks
      (s * L.base_lots_per_base_unit) hcost
    rw [sell_quote_eq_spec]
    simp only [sellQuoteSpec, hsp]
    have heq : s * L.base_lots_per_base_unit -
        (s * L.base_lots_per_base_unit -
          costSum L.tick_size_in_quote_lots_per_base_unit L.ladder.asks) =
        costSum L.tick_size_in_quote_lots_per_base_unit L.ladder.asks := by
      omega
    rw [heq]

/-- Witness for C7 on the fixture ladder, exercising both saturation
implications. -/
theorem fill_bounded_and_saturates_witness :
    (sell_base fixtureLadder 10000).base_lots_filled =
      sizeSum fixtureLadder.ladder.bids ∧
    (sell_quote fixtureLadder 8000000000).quote_lots_filled =
      costSum fixtureLadder.tick_size_in_quote_lots_per_base_unit
          fixtureLadder.ladder.asks /
        fixtureLadder.base_lots_per_base_unit :=
  ⟨(fill_bounded_and_saturates fixtureLadder 10000).2.2.1 (by decide),
    (fill_bounded_and_saturates fixtureLadder 8000000000).2.2.2 (by decide)⟩

/-- C10: sell_base fills exactly the minimum of the requested base lots and
total bid depth, independently of prices and scaling constants. -/
theorem sell_base_fill_eq_min (L : LadderWithAdjustment) (b : Nat) :
    (sell_base L b).base_lots_filled = min b (sizeSum L.ladder.bids) := by
  have hmin := sellBaseSpecWalk_fst_eq_min
    L.tick_size_in_quote_lots_per_base_unit L.ladder.bids b
  have hle := sellBaseSpecWalk_fst_le
    L.tick_size_in_quote_lots_per_base_unit L.ladder.bids b
  simp only [sell_base, sellBaseLoop_eq_walk]
  omega

/-- C8 counterexample: both scaling constants of zeroPriceLadder are nonzero,
yet the u64-faithful sell_quote faults (division by zero) on it, so nonzero
scaling constants alone do not make the simulator total. -/
theorem sell_quote_checked_div_by_zero :
    zeroPriceLadder.tick_size_in_quote_lots_per_base_unit ≠ 0 ∧
    zeroPriceLadder.base_lots_per_base_unit ≠ 0 ∧
    sell_quote_checked zeroPriceLadder 1 = none := by
  refine ⟨by decide, by decide, by decide⟩

theorem sellQuoteLoopChecked_isSome (tick : Nat) (l : List LadderOrder)
    (hl : ∀ a ∈ l, a.price_in_ticks * tick % U64MOD ≠ 0) :
    ∀ r base, (sellQuoteLoopChecked tick l r base).isSome := by
  induction l with
  | nil => intro r base; simp [sellQuoteLoopChecked]
  | cons a rest ih =>
    intro r base
    by_cases hr : r = 0
    · subst hr; simp [sellQuoteLoopChecked]
    · have hd := hl a (List.mem_cons_self a rest)
      simp only [sellQuoteLoopChecked, if_neg hr, if_neg hd]
      exact ih (fun x hx => hl x (List.mem_cons_of_mem a hx)) _ _

/-- C8 amended: if additionally every ask level's price_in_ticks times the
tick size is nonzero modulo 2 ^ 64 (in particular no zero-priced ask), then
sell_quote, sell_base and simulate_market_sell reach no arithmetic fault and
always return a summary. -/
theorem simulator_checked_total (L : LadderWithAdjustment) (n : Nat) (side : Side)
    (htick : L.tick_size_in_quote_lots_per_base_unit ≠ 0)
    (hblpbu : L.base_lots_per_base_unit ≠ 0)
    (hasks : ∀ a ∈ L.ladder.asks,
      a.price_in_ticks * L.tick_size_in_quote_lots_per_base_unit % U64MOD ≠ 0) :
    (sell_quote_checked L n).isSome = true ∧
    (sell_base_checked L n).isSome = true ∧
    (simulate_market_sell_checked L side n).isSome = true := by
  have hquote : (sell_quote_checked L n).isSome = true := by
    have hq := sellQuoteLoopChecked_isSome L.tick_size_in_quote_lots_per_base_unit
      L.ladder.asks hasks (n * L.base_lots_per_base_unit % U64MOD) 0
    obtain ⟨res, hres⟩ := Option.isSome_iff_exists.mp hq
    simp [sell_quote_checked, hres, hblpbu]
  have hbase : (sell_base_checked L n).isSome = true := by
    unfold sell_base_checked
    simp [hblpbu]
  refine ⟨hquote, hbase, ?_⟩
  cases side
  · exact hquote
  · exact hbase

/-- Witness for the amended C8 on the fixture ladder. -/
theorem simulator_checked_total_witness :
    (sell_quote_checked fixtureLadder 5).isSome = true ∧
    (sell_base_checked fixtureLadder 5).isSome = true ∧
    (simulate_market_sell_checked fixtureLadder Side.Ask 5).isSome = true :=
  simulator_checked_total fixtureLadder 5 Side.Ask (by decide) (by decide)
    (by decide)

theorem readLE_encodeLE (k : Nat) :
    ∀ n rest, n < 256 ^ k → readLE k (encodeLE k n ++ rest) = some (n, rest) := by
  induction k with
  | zero =>
    intro n rest h
    have hn : n = 0 := by simpa using h
    subst hn
    simp [readLE, encodeLE]
  | succ k ih =>
    intro n rest h
    have hdiv : n / 256 < 256 ^ k := by
      have hlt : n < 256 * 256 ^ k := by
        rw [← pow_succ']
        exact h
      exact Nat.div_lt_of_lt_mul hlt
    simp only [encodeLE, readLE, List.cons_append, List.append_eq]
    rw [ih (n / 256) rest hdiv]
    simp [Nat.mod_add_div]

theorem readU64_encode (n : Nat) (rest : List Nat)
    (h : n < 18446744073709551616) :
    readLE 8 (encodeLE 8 n ++ rest) = some (n, rest) :=
  readLE_encodeLE 8 n rest (by norm_num; exact h)

theorem readU128_encode (n : Nat) (rest : List Nat)
    (h : n < 340282366920938463463374607431768211456) :
    readLE 16 (encodeLE 16 n ++ rest) = some (n, rest) :=
  readLE_encodeLE 16 n rest (by norm_num; exact h)

theorem readSide_encodeSide (s : Side) (rest : List Nat) :
    readSide (encodeSide s ++ rest) = some (s, rest) := by
  cases s <;> simp [readSide, encodeSide]

theorem readSelfTradeBehavior_encode (b : SelfTradeBehavior) (rest : List Nat) :
    readSelfTradeBehavior (encodeSelfTradeBehavior b ++ rest) = some (b, rest) := by
  cases b <;> simp [readSelfTradeBehavior, encodeSelfTradeBehavior]

theorem readBool_encodeBool (b : Bool) (rest : List Nat) :
    readBool (encodeBool b ++ rest) = some (b, rest) := by
  cases b <;> simp [readBool, encodeBool]

theorem readBool_encodeBool_nil (b : Bool) :
    readBool (encodeBool b) = some (b, []) := by
  cases b <;> simp [readBool, encodeBool]

theorem readOptU64_nil : readOptU64 [] = none := rfl

theorem readOptU64_encodeOptU64 (o : Option Nat) (rest : List Nat)
    (h : optU64wf o = true) :
    readOptU64 (encodeOptU64 o ++ rest) = some (o, rest) := by
  cases o with
  | none => simp [readOptU64, encodeOptU64]
  | some v =>
    simp only [optU64wf, decide_eq_true_eq] at h
    simp only [encodeOptU64, List.cons_append, readOptU64]
    rw [readU64_encode v rest h]
    simp

theorem parsePostOnlyBody_encode (p : PostOnlyPacket) (h : p.wf = true)
    (rest : List Nat) :
    parsePostOnlyBody (encodePostOnlyPacket p ++ rest) = some (p, rest) := by
  simp only [PostOnlyPacket.wf, Bool.and_eq_true, decide_eq_true_eq] at h
  obtain ⟨⟨⟨⟨h1, h2⟩, h3⟩, h4⟩, h5⟩ := h
  simp [parsePostOnlyBody, encodePostOnlyPacket, List.append_assoc,
    readSide_encodeSide, readU64_encode, readU128_encode, readBool_encodeBool,
    readOptU64_encodeOptU64, h1, h2, h3, h4, h5]

theorem parseDeprecatedPostOnlyBody_encode (d : DeprecatedPostOnlyPacket)
    (h : d.wf = true) (rest : List Nat) :
    parseDeprecatedPostOnlyBody (encodeDeprecatedPostOnlyPacket d ++ rest) =
      some (d, rest) := by
  simp only [DeprecatedPostOnlyPacket.wf, Bool.and_eq_true, decide_eq_true_eq] at h
  obtain ⟨⟨h1, h2⟩, h3⟩ := h
  simp [parseDeprecatedPostOnlyBody, encodeDeprecatedPostOnlyPacket,
    List.append_assoc, readSide_encodeSide, readU64_encode, readU128_encode,
    readBool_encodeBool, h1, h2, h3]

set_option maxHeartbeats 2000000 in
theorem parseLimitBody_encode (p : LimitPacket) (h : p.wf = true)
    (rest : List Nat) :
    parseLimitBody (encodeLimitPacket p ++ rest) = some (p, rest) := by
  simp only [LimitPacket.wf, Bool.and_eq_true, decide_eq_true_eq] at h
  obtain ⟨⟨⟨⟨⟨hp, hn⟩, hm⟩, hc⟩, hs⟩, ht⟩ := h
  have r1 : ∀ t, readLE 8 (encodeLE 8 p.price_in_ticks ++ t) =
      some (p.price_in_ticks, t) := fun t => readU64_encode _ t hp
  have r2 : ∀ t, readLE 8 (encodeLE 8 p.num_base_lots ++ t) =
      some (p.num_base_lots, t) := fun t => readU64_encode _ t hn
  have r3 : ∀ t, readOptU64 (encodeOptU64 p.match_limit ++ t) =
      some (p.match_limit, t) := fun t => readOptU64_encodeOptU64 _ t hm
  have r4 : ∀ t, readLE 16 (encodeLE 16 p.client_order_id ++ t) =
      some (p.client_order_id, t) := fun t => readU128_encode _ t hc
  have r5 : ∀ t, readOptU64 (encodeOptU64 p.last_valid_slot ++ t) =
      some (p.last_valid_slot, t) := fun t => readOptU64_encodeOptU64 _ t hs
  have r6 : ∀ t, readOptU64 (encodeOptU64 p.last_valid_unix_timestamp_in_seconds ++ t) =
      some (p.last_valid_unix_timestamp_in_seconds, t) := fun t =>
        readOptU64_encodeOptU64 _ t ht
  simp [parseLimitBody, encodeLimitPacket, List.append_assoc,
    readSide_encodeSide, readBool_encodeBool,
    readSelfTradeBehavior_encode, r1, r2, r3, r4, r5, r6]

set_option maxHeartbeats 2000000 in
theorem parseDeprecatedLimitBody_encode (d : DeprecatedLimitPacket)
    (h : d.wf = true) (rest : List Nat) :
    parseDeprecatedLimitBody (encodeDeprecatedLimitPacket d ++ rest) =
      some (d, rest) := by
  simp only [DeprecatedLimitPacket.wf, Bool.and_eq_true, decide_eq_true_eq] at h
  obtain ⟨⟨⟨hp, hn⟩, hm⟩, hc⟩ := h
  have r1 : ∀ t, readLE 8 (encodeLE 8 d.price_in_ticks ++ t) =
      some (d.price_in_ticks, t) := fun t => readU64_encode _ t hp
  have r2 : ∀ t, readLE 8 (encodeLE 8 d.num_base_lots ++ t) =
      some (d.num_base_lots, t) := fun t => readU64_encode _ t hn
  have r3 : ∀ t, readOptU64 (encodeOptU64 d.match_limit ++ t) =
      some (d.match_limit, t) := fun t => readOptU64_encodeOptU64 _ t hm
  have r4 : ∀ t, readLE 16 (encodeLE 16 d.client_order_id ++ t) =
      some (d.client_order_id, t) := fun t => readU128_encode _ t hc
  simp [parseDeprecatedLimitBody, encodeDeprecatedLimitPacket, List.append_assoc,
    readSide_encodeSide, readBool_encodeBool,
    readSelfTradeBehavior_encode, r1, r2, r3, r4]

set_option maxHeartbeats 2000000 in
theorem parseIocBody_encode (p : ImmediateOrCancelPacket) (h : p.wf = true)
    (rest : List Nat) :
    parseIocBody (encodeIocPacket p ++ rest) = some (p, rest) := by
  simp only [ImmediateOrCancelPacket.wf, Bool.and_eq_true, decide_eq_true_eq] at h
  obtain ⟨⟨⟨⟨⟨⟨⟨⟨hp, hn⟩, hq⟩, hmb⟩, hmq⟩, hm⟩, hc⟩, hs⟩, ht⟩ := h
  have r0 : ∀ t, readOptU64 (encodeOptU64 p.price_in_ticks ++ t) =
      some (p.price_in_ticks, t) := fun t => readOptU64_encodeOptU64 _ t hp
  have r1 : ∀ t, readLE 8 (encodeLE 8 p.num_base_lots ++ t) =
      some (p.num_base_lots, t) := fun t => readU64_encode _ t hn
  have r2 : ∀ t, readLE 8 (encodeLE 8 p.num_quote_lots ++ t) =
      some (p.num_quote_lots, t) := fun t => readU64_encode _ t hq
  have r3 : ∀ t, readLE 8 (encodeLE 8 p.min_base_lots_to_fill ++ t) =
      some (p.min_base_lots_to_fill, t) := fun t => readU64_encode _ t hmb
  have r4 : ∀ t, readLE 8 (encodeLE 8 p.min_quote_lots_to_fill ++ t) =
      some (p.min_quote_lots_to_fill, t) := fun t => readU64_encode _ t hmq
  have r5 : ∀ t, readOptU64 (encodeOptU64 p.match_limit ++ t) =
      some (p.match_limit, t) := fun t => readOptU64_encodeOptU64 _ t hm
  have r6 : ∀ t, readLE 16 (encodeLE 16 p.client_order_id ++ t) =
      some (p.client_order_id, t) := fun t => readU128_encode _ t hc
  have r7 : ∀ t, readOptU64 (encodeOptU64 p.last_valid_slot ++ t) =
      some (p.last_valid_slot, t) := fun t => readOptU64_encodeOptU64 _ t hs
  have r8 : ∀ t, readOptU64 (encodeOptU64 p.last_valid_unix_timestamp_in_seconds ++ t) =
      some (p.last_valid_unix_timestamp_in_seconds, t) := fun t =>
        readOptU64_encodeOptU64 _ t ht
  simp [parseIocBody, encodeIocPacket, List.append_assoc,
    readSide_encodeSide, readBool_encodeBool,
    readSelfTradeBehavior_encode, r0, r1, r2, r3, r4, r5, r6, r7, r8]

set_option maxHeartbeats 2000000 in
theorem parseDeprecatedIocBody_encode (d : DeprecatedImmediateOrCancelPacket)
    (h : d.wf = true) (rest : List Nat) :
    parseDeprecatedIocBody (encodeDeprecatedIocPacket d ++ rest) =
      some (d, rest) := by
  simp only [DeprecatedImmediateOrCancelPacket.wf, Bool.and_eq_true,
    decide_eq_true_eq] at h
  obtain ⟨⟨⟨⟨⟨⟨hp, hn⟩, hq⟩, hmb⟩, hmq⟩, hm⟩, hc⟩ := h
  have r0 : ∀ t, readOptU64 (encodeOptU64 d.price_in_ticks ++ t) =
      some (d.price_in_ticks, t) := fun t => readOptU64_encodeOptU64 _ t hp
  have r1 : ∀ t, readLE 8 (encodeLE 8 d.num_base_lots ++ t) =
      some (d.num_base_lots, t) := fun t => readU64_encode _ t hn
  have r2 : ∀ t, readLE 8 (encodeLE 8 d.num_quote_lots ++ t) =
      some (d.num_quote_lots, t) := fun t => readU64_encode _ t hq
  have r3 : ∀ t, readLE 8 (encodeLE 8 d.min_base_lots_to_fill ++ t) =
      some (d.min_base_lots_to_fill, t) := fun t => readU64_encode _ t hmb
  have r4 : ∀ t, readLE 8 (encodeLE 8 d.min_quote_lots_to_fill ++ t) =
      some (d.min_quote_lots_to_fill, t) := fun t => readU64_encode _ t hmq
  have r5 : ∀ t, readOptU64 (encodeOptU64 d.match_limit ++ t) =
      some (d.match_limit, t) := fun t => readOptU64_encodeOptU64 _ t hm
  have r6 : ∀ t, readLE 16 (encodeLE 16 d.client_order_id ++ t) =
      some (d.client_order_id, t) := fun t => readU128_encode _ t hc
  simp [parseDeprecatedIocBody, encodeDeprecatedIocPacket, List.append_assoc,
    readSide_encodeSide, readBool_encodeBool,
    readSelfTradeBehavior_encode, r0, r1, r2, r3, r4, r5, r6]

theorem try_from_slice_encodePostOnly (p : PostOnlyPacket) (h : p.wf = true) :
    PostOnlyPacket.try_from_slice (encodePostOnlyPacket p) = some p := by
  have hp := parsePostOnlyBody_encode p h []
  rw [List.append_nil] at hp
  simp [PostOnlyPacket.try_from_slice, hp]

theorem try_from_slice_encodeLimit (p : LimitPacket) (h : p.wf = true) :
    LimitPacket.try_from_slice (encodeLimitPacket p) = some p := by
  have hp := parseLimitBody_encode p h []
  rw [List.append_nil] at hp
  simp [LimitPacket.try_from_slice, hp]

theorem try_from_slice_encodeIoc (p : ImmediateOrCancelPacket) (h : p.wf = true) :
    ImmediateOrCancelPacket.try_from_slice (encodeIocPacket p) = some p := by
  have hp := parseIocBody_encode p h []
  rw [List.append_nil] at hp
  simp [ImmediateOrCancelPacket.try_from_slice, hp]

theorem try_from_slice_encodeDeprecatedPostOnly (d : DeprecatedPostOnlyPacket)
    (h : d.wf = true) :
    DeprecatedPostOnlyPacket.try_from_slice (encodeDeprecatedPostOnlyPacket d) =
      some d := by
  have hp := parseDeprecatedPostOnlyBody_encode d h []
  rw [List.append_nil] at hp
  simp [DeprecatedPostOnlyPacket.try_from_slice, hp]

theorem try_from_slice_encodeDeprecatedLimit (d : DeprecatedLimitPacket)
    (h : d.wf = true) :
    DeprecatedLimitPacket.try_from_slice (encodeDeprecatedLimitPacket d) =
      some d := by
  have hp := parseDeprecatedLimitBody_encode d h []
  rw [List.append_nil] at hp
  simp [DeprecatedLimitPacket.try_from_slice, hp]

theorem try_from_slice_encodeDeprecatedIoc (d : DeprecatedImmediateOrCancelPacket)
    (h : d.wf = true) :
    DeprecatedImmediateOrCancelPacket.try_from_slice (encodeDeprecatedIocPacket d) =
      some d := by
  have hp := parseDeprecatedIocBody_encode d h []
  rw [List.append_nil] at hp
  simp [DeprecatedImmediateOrCancelPacket.try_from_slice, hp]

theorem current_try_from_slice_on_deprecatedPostOnly (d : DeprecatedPostOnlyPacket)
    (h : d.wf = true) :
    PostOnlyPacket.try_from_slice (encodeDeprecatedPostOnlyPacket d) = none := by
  simp only [DeprecatedPostOnlyPacket.wf, Bool.and_eq_true, decide_eq_true_eq] at h
  obtain ⟨⟨h1, h2⟩, h3⟩ := h
  have hparse : parsePostOnlyBody (encodeDeprecatedPostOnlyPacket d) = none := by
    simp [parsePostOnlyBody, encodeDeprecatedPostOnlyPacket, List.append_assoc,
      readSide_encodeSide, readU64_encode, readU128_encode, readBool_encodeBool,
      readBool_encodeBool_nil, readOptU64_nil, h1, h2, h3]
  simp [PostOnlyPacket.try_from_slice, hparse]

theorem current_try_from_slice_on_deprecatedLimit (d : DeprecatedLimitPacket)
    (h : d.wf = true) :
    LimitPacket.try_from_slice (encodeDeprecatedLimitPacket d) = none := by
  simp only [DeprecatedLimitPacket.wf, Bool.and_eq_true, decide_eq_true_eq] at h
  obtain ⟨⟨⟨hp, hn⟩, hm⟩, hc⟩ := h
  have r3 : ∀ t, readOptU64 (encodeOptU64 d.match_limit ++ t) =
      some (d.match_limit, t) := fun t => readOptU64_encodeOptU64 _ t hm
  have hparse : parseLimitBody (encodeDeprecatedLimitPacket d) = none := by
    simp [parseLimitBody, encodeDeprecatedLimitPacket, List.append_assoc,
      readSide_encodeSide, readU64_encode, readU128_encode, readBool_encodeBool,
      readBool_encodeBool_nil, readOptU64_nil, readSelfTradeBehavior_encode,
      r3, hp, hn, hc]
  simp [LimitPacket.try_from_slice, hparse]

theorem current_try_from_slice_on_deprecatedIoc
    (d : DeprecatedImmediateOrCancelPacket) (h : d.wf = true) :
    ImmediateOrCancelPacket.try_from_slice (encodeDeprecatedIocPacket d) = none := by
  simp only [DeprecatedImmediateOrCancelPacket.wf, Bool.and_eq_true,
    decide_eq_true_eq] at h
  obtain ⟨⟨⟨⟨⟨⟨hp, hn⟩, hq⟩, hmb⟩, hmq⟩, hm⟩, hc⟩ := h
  have r0 : ∀ t, readOptU64 (encodeOptU64 d.price_in_ticks ++ t) =
      some (d.price_in_ticks, t) := fun t => readOptU64_encodeOptU64 _ t hp
  have r5 : ∀ t, readOptU64 (encodeOptU64 d.match_limit ++ t) =
      some (d.match_limit, t) := fun t => readOptU64_encodeOptU64 _ t hm
  have hparse : parseIocBody (encodeDeprecatedIocPacket d) = none := by
    simp [parseIocBody, encodeDeprecatedIocPacket, List.append_assoc,
      readSide_encodeSide, readU64_encode, readU128_encode, readBool_encodeBool,
      readBool_encodeBool_nil, readOptU64_nil, readSelfTradeBehavior_encode,
      r0, r5, hn, hq, hmb, hmq, hc]
  simp [ImmediateOrCancelPacket.try_from_slice, hparse]

/-- C3: whenever the body parses under the current schema, each decode
function with the matching tag byte returns exactly that current-schema
parse, never the deprecated interpretation. -/
theorem decode_current_schema_first (b1 b2 b3 : List Nat)
    (p1 : PostOnlyPacket) (p2 : LimitPacket) (p3 : ImmediateOrCancelPacket)
    (h1 : PostOnlyPacket.try_from_slice b1 = some p1)
    (h2 : LimitPacket.try_from_slice b2 = some p2)
    (h3 : ImmediateOrCancelPacket.try_from_slice b3 = some p3) :
    decode_post_only_packet_data (0 :: b1) = Except.ok p1 ∧
    decode_limit_packet_data (1 :: b2) = Except.ok p2 ∧
    decode_ioc_packet_data (2 :: b3) = Except.ok p3 := by
  refine ⟨?_, ?_, ?_⟩
  · simp [decode_post_only_packet_data, OrderPacketEnum.try_from_byte, h1]
  · simp [decode_limit_packet_data, OrderPacketEnum.try_from_byte, h2]
  · simp [decode_ioc_packet_data, OrderPacketEnum.try_from_byte, h3]

/-- Witness for C3 on concrete current-schema encodings. -/
theorem decode_current_schema_first_witness :
    decode_post_only_packet_data (0 :: encodePostOnlyPacket postOnlyExample) =
      Except.ok postOnlyExample ∧
    decode_limit_packet_data (1 :: encodeLimitPacket limitExample) =
      Except.ok limitExample ∧
    decode_ioc_packet_data (2 :: encodeIocPacket iocExample) =
      Except.ok iocExample :=
  decode_current_schema_first _ _ _ _ _ _
    (try_from_slice_encodePostOnly postOnlyExample (by decide))
    (try_from_slice_encodeLimit limitExample (by decide))
    (try_from_slice_encodeIoc iocExample (by decide))

/-- C4: decoding a tag byte followed by a deprecated-schema encoding succeeds
and returns the current-schema value with the same fields and both expiry
fields unset. -/
theorem decode_deprecated_upgrade
    (d1 : DeprecatedPostOnlyPacket) (d2 : DeprecatedLimitPacket)
    (d3 : DeprecatedImmediateOrCancelPacket)
    (h1 : d1.wf = true) (h2 : d2.wf = true) (h3 : d3.wf = true) :
    decode_post_only_packet_data (0 :: encodeDeprecatedPostOnlyPacket d1) =
      Except.ok
        { side := d1.side
          price_in_ticks := d1.price_in_ticks
          num_base_lots := d1.num_base_lots
          client_order_id := d1.client_order_id
          reject_post_only := d1.reject_post_only
          use_only_deposited_funds := d1.use_only_deposited_funds
          last_valid_slot := none
          last_valid_unix_timestamp_in_seconds := none } ∧
    decode_limit_packet_data (1 :: encodeDeprecatedLimitPacket d2) =
      Except.ok
        { side := d2.side
          price_in_ticks := d2.price_in_ticks
          num_base_lots := d2.num_base_lots
          self_trade_behavior := d2.self_trade_behavior
          match_limit := d2.match_limit
          client_order_id := d2.client_order_id
          use_only_deposited_funds := d2.use_only_deposited_funds
          last_valid_slot := none
          last_valid_unix_timestamp_in_seconds := none } ∧
    decode_ioc_packet_data (2 :: encodeDeprecatedIocPacket d3) =
      Except.ok
        { side := d3.side
          price_in_ticks := d3.price_in_ticks
          num_base_lots := d3.num_base_lots
          num_quote_lots := d3.num_quote_lots
          min_base_lots_to_fill := d3.min_base_lots_to_fill
          min_quote_lots_to_fill := d3.min_quote_lots_to_fill
          self_trade_behavior := d3.self_trade_behavior
          match_limit := d3.match_limit
          client_order_id := d3.client_order_id
          use_only_deposited_funds := d3.use_only_deposited_funds
          last_valid_slot := none
          last_valid_unix_timestamp_in_seconds := none } := by
  refine ⟨?_, ?_, ?_⟩
  · simp [decode_post_only_packet_data, OrderPacketEnum.try_from_byte,
      current_try_from_slice_on_deprecatedPostOnly d1 h1,
      try_from_slice_encodeDeprecatedPostOnly d1 h1]
  · simp [decode_limit_packet_data, OrderPacketEnum.try_from_byte,
      current_try_from_slice_on_deprecatedLimit d2 h2,
      try_from_slice_encodeDeprecatedLimit d2 h2]
  · simp [decode_ioc_packet_data, OrderPacketEnum.try_from_byte,
      current_try_from_slice_on_deprecatedIoc d3 h3,
      try_from_slice_encodeDeprecatedIoc d3 h3]

/-- Witness for C4 on concrete deprecated-schema encodings. -/
theorem decode_deprecated_upgrade_witness :
    decode_post_only_packet_data
        (0 :: encodeDeprecatedPostOnlyPacket deprecatedPostOnlyExample) =
      Except.ok
        { side := deprecatedPostOnlyExample.side
          price_in_ticks := deprecatedPostOnlyExample.price_in_ticks
          num_base_lots := deprecatedPostOnlyExample.num_base_lots
          client_order_id := deprecatedPostOnlyExample.client_order_id
          reject_post_only := deprecatedPostOnlyExample.reject_post_only
          use_only_deposited_funds := deprecatedPostOnlyExample.use_only_deposited_funds
          last_valid_slot := none
          last_valid_unix_timestamp_in_seconds := none } ∧
    decode_limit_packet_data
        (1 :: encodeDeprecatedLimitPacket deprecatedLimitExample) =
      Except.ok
        { side := deprecatedLimitExample.side
          price_in_ticks := deprecatedLimitExample.price_in_ticks
          num_base_lots := deprecatedLimitExample.num_base_lots
          self_trade_behavior := deprecatedLimitExample.self_trade_behavior
          match_limit := deprecatedLimitExample.match_limit
          client_order_id := deprecatedLimitExample.client_order_id
          use_only_deposited_funds := deprecatedLimitExample.use_only_deposited_funds
          last_valid_slot := none
          last_valid_unix_timestamp_in_seconds := none } ∧
    decode_ioc_packet_data
        (2 :: encodeDeprecatedIocPacket deprecatedIocExample) =
      Except.ok
        { side := deprecatedIocExample.side
          price_in_ticks := deprecatedIocExample.price_in_ticks
          num_base_lots := deprecatedIocExample.num_base_lots
          num_quote_lots := deprecatedIocExample.num_quote_lots
          min_base_lots_to_fill := deprecatedIocExample.min_base_lots_to_fill
          min_quote_lots_to_fill := deprecatedIocExample.min_quote_lots_to_fill
          self_trade_behavior := deprecatedIocExample.self_trade_behavior
          match_limit := deprecatedIocExample.match_limit
          client_order_id := deprecatedIocExample.client_order_id
          use_only_deposited_funds := deprecatedIocExample.use_only_deposited_funds
          last_valid_slot := none
          last_valid_unix_timestamp_in_seconds := none } :=
  decode_deprecated_upgrade deprecatedPostOnlyExample deprecatedLimitExample
    deprecatedIocExample (by decide) (by decide) (by decide)

/-- C5: decoding a tag byte followed by the current-schema encoding of a
packet reproduces that packet exactly, expiry fields included. -/
theorem decode_encode_roundtrip (p1 : PostOnlyPacket) (p2 : LimitPacket)
    (p3 : ImmediateOrCancelPacket) (h1 : p1.wf = true) (h2 : p2.wf = true)
    (h3 : p3.wf = true) :
    decode_post_only_packet_data (0 :: encodePostOnlyPacket p1) = Except.ok p1 ∧
    decode_limit_packet_data (1 :: encodeLimitPacket p2) = Except.ok p2 ∧
    decode_ioc_packet_data (2 :: encodeIocPacket p3) = Except.ok p3 := by
  refine ⟨?_, ?_, ?_⟩
  · simp [decode_post_only_packet_data, OrderPacketEnum.try_from_byte,
      try_from_slice_encodePostOnly p1 h1]
  · simp [decode_limit_packet_data, OrderPacketEnum.try_from_byte,
      try_from_slice_encodeLimit p2 h2]
  · simp [decode_ioc_packet_data, OrderPacketEnum.try_from_byte,
      try_from_slice_encodeIoc p3 h3]

/-- Witness for C5 on concrete current-schema packets. -/
theorem decode_encode_roundtrip_witness :
    decode_post_only_packet_data (0 :: encodePostOnlyPacket postOnlyExample) =
      Except.ok postOnlyExample ∧
    decode_limit_packet_data (1 :: encodeLimitPacket limitExample) =
      Except.ok limitExample ∧
    decode_ioc_packet_data (2 :: encodeIocPacket iocExample) =
      Except.ok iocExample :=
  decode_encode_roundtrip postOnlyExample limitExample iocExample
    (by decide) (by decide) (by decide)

/-- C9: each decode function is total (modelled as a Lean function into
Except it can never panic) and returns an error exactly when the input is
empty, the tag is unknown or not the requested kind, or the body parses
under neither schema; on every other input it returns Ok. -/
theorem decode_error_conditions :
    (decode_post_only_packet_data [] = Except.error DecodeError.emptyInput) ∧
    (decode_limit_packet_data [] = Except.error DecodeError.emptyInput) ∧
    (decode_ioc_packet_data [] = Except.error DecodeError.emptyInput) ∧
    (∀ t body, (decode_post_only_packet_data (t :: body)).isOk = true ↔
      t = 0 ∧ (PostOnlyPacket.try_from_slice body ≠ none ∨
        DeprecatedPostOnlyPacket.try_from_slice body ≠ none)) ∧
    (∀ t body, (decode_limit_packet_data (t :: body)).isOk = true ↔
      t = 1 ∧ (LimitPacket.try_from_slice body ≠ none ∨
        DeprecatedLimitPacket.try_from_slice body ≠ none)) ∧
    (∀ t body, (decode_ioc_packet_data (t :: body)).isOk = true ↔
      t = 2 ∧ (ImmediateOrCancelPacket.try_from_slice body ≠ none ∨
        DeprecatedImmediateOrCancelPacket.try_from_slice body ≠ none)) := by
  refine ⟨rfl, rfl, rfl, ?_, ?_, ?_⟩
  · intro t body
    simp only [decode_post_only_packet_data, OrderPacketEnum.try_from_byte]
    by_cases h0 : t = 0
    · subst h0
      simp only [if_pos rfl]
      cases hcur : PostOnlyPacket.try_from_slice body with
      | some p => simp [Except.isOk, Except.toBool]
      | none =>
        cases hdep : DeprecatedPostOnlyPacket.try_from_slice body with
        | some d => simp [Except.isOk, Except.toBool]
        | none => simp [Except.isOk, Except.toBool]
    · by_cases ha : t = 1
      · subst ha
        simp [Except.isOk, Except.toBool]
      · by_cases hb : t = 2
        · subst hb
          simp [Except.isOk, Except.toBool]
        · simp [h0, ha, hb, Except.isOk, Except.toBool]
  · intro t body
    simp only [decode_limit_packet_data, OrderPacketEnum.try_from_byte]
    by_cases h0 : t = 1
    · subst h0
      simp only [if_neg Nat.one_ne_zero, if_pos rfl]
      cases hcur : LimitPacket.try_from_slice body with
      | some p => simp [Except.isOk, Except.toBool]
      | none =>
        cases hdep : DeprecatedLimitPacket.try_from_slice body with
        | some d => simp [Except.isOk, Except.toBool]
        | none => simp [Except.isOk, Except.toBool]
    · by_cases ha : t = 0
      · subst ha
        simp [Except.isOk, Except.toBool]
      · by_cases hb : t = 2
        · subst hb
          simp [Except.isOk, Except.toBool]
        · simp [h0, ha, hb, Except.isOk, Except.toBool]
  · intro t body
    simp only [decode_ioc_packet_data, OrderPacketEnum.try_from_byte]
    by_cases h0 : t = 2
    · subst h0
      simp only [if_neg (by norm_num : (2 : Nat) ≠ 0),
        if_neg (by norm_num : (2 : Nat) ≠ 1), if_pos rfl]
      cases hcur : ImmediateOrCancelPacket.try_from_slice body with
      | some p => simp [Except.isOk, Except.toBool]
      | none =>
        cases hdep : DeprecatedImmediateOrCancelPacket.try_from_slice body with
        | some d => simp [Except.isOk, Except.toBool]
        | none => simp [Except.isOk, Except.toBool]
    · by_cases ha : t = 0
      · subst ha
        simp [Except.isOk, Except.toBool]
      · by_cases hb : t = 1
        · subst hb
          simp [Except.isOk, Except.toBool]
        · simp [h0, ha, hb, Except.isOk, Except.toBool]
